import Mathlib

/-!
Shallow embedding of the DomainAnalyser DNS reconnaissance core
(`backend/app/services/dns_service.py` and the pydantic models in
`backend/app/models.py`), together with theorems checking the
natural-language specification against it.

Modelling conventions:
* The network is an oracle `DnsOracle : String → String → DnsOutcome`
  giving, for each (name, record type) pair, the outcome of the one
  underlying `resolver.resolve` call that `_resolve` performs.
* Python `dict`s that are built by inserting keys in a fixed iteration
  order are modelled as association lists in insertion order.
* Python string operations (`strip`, `lower`, `rstrip(".")`, `in`,
  `startswith`) are modelled by structurally recursive functions over
  `List Char` so that they evaluate by `decide`/`rfl`; ASCII whitespace
  and case are what the inputs of interest use.
* `sorted(set(xs))` is modelled by `dedupSort`: dedup followed by
  insertion sort.  A strictly sorted list is determined by its members,
  so any correct sorting algorithm is a faithful model.
* A wordlist path is modelled by its resolved content: `none` for an
  absent file, `some lines` for a file whose lines (without trailing
  newlines) are `lines`.
-/

namespace DomainAnalyser

/-- Outcome of one underlying `resolver.resolve(domain, record_type,
raise_on_no_answer=False)` call inside `_resolve`: a returned answer object
(possibly `None`), a DNS-level failure (`NXDOMAIN`, `NoNameservers`,
`NoAnswer`, or any other `dns.exception.DNSException`, timeouts included),
or a non-DNS exception escaping the query. -/
inductive DnsOutcome where
  | answers (vals : Option (List String))
  | dnsError
  | raised
deriving DecidableEq, Repr

/-- The network, seen as a map from (name, record type) to the outcome of
querying it once. -/
def DnsOracle : Type := String → String → DnsOutcome

/-- Python `str.rstrip(".")`: remove every trailing dot. -/
def rstripDot (s : String) : String :=
  ⟨((s.toList.reverse.dropWhile (fun c => c = '.')).reverse)⟩

/-- Python `str.strip()`: remove leading and trailing whitespace. -/
def pyStrip (s : String) : String :=
  ⟨(((s.toList.dropWhile Char.isWhitespace).reverse.dropWhile Char.isWhitespace).reverse)⟩

/-- Python `str.lower()`. -/
def pyLower (s : String) : String :=
  ⟨(s.toList.map Char.toLower)⟩

/-- Does `hay` start with `needle` (on character lists)? -/
def charsPrefixOf : List Char → List Char → Bool
  | [], _ => true
  | _ :: _, [] => false
  | c :: cs, d :: ds => c == d && charsPrefixOf cs ds

/-- Does `needle` occur as a contiguous sublist of `hay`? -/
def charsContains (needle : List Char) : List Char → Bool
  | [] => needle.isEmpty
  | d :: ds => charsPrefixOf needle (d :: ds) || charsContains needle ds

/-- Python `needle in hay` for strings. -/
def strContains (hay needle : String) : Bool :=
  charsContains needle.toList hay.toList

/-- Python `hay.startswith(needle)` for strings. -/
def strStartsWith (hay needle : String) : Bool :=
  charsPrefixOf needle.toList hay.toList

/-- Lexicographic comparison of character lists, as an executable Boolean
(the order Python uses to sort strings). -/
def charsLe : List Char → List Char → Bool
  | [], _ => true
  | _ :: _, [] => false
  | c :: cs, d :: ds =>
    if c < d then true else if d < c then false else charsLe cs ds

/-- Executable lexicographic `≤` on strings (shown below to agree with the
order of `LinearOrder String`). -/
def strLe (a b : String) : Bool := charsLe a.toList b.toList

/-- Python `sorted(set(xs))` for strings: deduplicate, then sort
lexicographically.  A strictly sorted list is determined by its members, so
the choice of sorting algorithm is immaterial. -/
def dedupSort (l : List String) : List String :=
  (l.dedup).insertionSort (fun a b => strLe a b = true)

/-- The tuple `RECORD_TYPES` from `dns_service.py`. -/
def RECORD_TYPES : List String := ["A", "AAAA", "MX", "TXT", "NS", "CNAME"]

/-- The `_resolve` coroutine of `dns_service.py`: a DNS-level failure
(`NXDOMAIN`, `NoNameservers`, `NoAnswer`, any `DNSException`) or a `None`
answer yields `[]`; a successful answer yields its values with trailing
dots stripped, deduplicated and sorted; any other exception propagates
(modelled by `Except.error`). -/
def resolveAdapter (oracle : DnsOracle) (domain record_type : String) :
    Except Unit (List String) :=
  match oracle domain record_type with
  | .dnsError => .ok []
  | .raised => .error ()
  | .answers none => .ok []
  | .answers (some vals) => .ok (dedupSort (vals.map rstripDot))

/-- The `verify_domain` coroutine: gather SOA, A and MX lookups with
`return_exceptions=True` and test `any(isinstance(item, list) and item ...)`:
a raised probe is an exception object, not a list, and counts as false. -/
def verify_domain (oracle : DnsOracle) (domain : String) : Bool :=
  [resolveAdapter oracle domain "SOA",
   resolveAdapter oracle domain "A",
   resolveAdapter oracle domain "MX"].any
    (fun item => match item with
      | .ok l => !l.isEmpty
      | .error _ => false)

/-- The value `gather_dns_records` obtains for one record type: the
`_resolve` result, with any exception other than cancellation caught and
replaced by `[]`. -/
def gatherValue (oracle : DnsOracle) (domain record_type : String) : List String :=
  match resolveAdapter oracle domain record_type with
  | .ok vals => vals
  | .error _ => []

/-- The `gather_dns_records` coroutine: one `_resolve` task per record type
in `RECORD_TYPES`; a type is inserted into the result dict (here: an
insertion-ordered association list) only when its value list is non-empty. -/
def gather_dns_records (oracle : DnsOracle) (domain : String) :
    List (String × List String) :=
  RECORD_TYPES.filterMap (fun record_type =>
    let values := gatherValue oracle domain record_type
    if values.isEmpty then none else some (record_type, values))

/-- Python `records.get(key, [])` on the association-list model of a dict. -/
def recordsGet (records : List (String × List String)) (key : String) :
    List String :=
  match records.find? (fun p => p.1 == key) with
  | some p => p.2
  | none => []

/-- The pydantic model `ProviderBreakdown` of `models.py`: email label,
productivity label, and an evidence dict from category to raw values. -/
structure ProviderBreakdown where
  email : String
  productivity : String
  evidence : List (String × List String)
deriving DecidableEq, Repr

/-- The pydantic model `SubdomainInsight` of `models.py`.  Its declared
fields are exactly `fqdn`, `records` and `providers`: it has no `networks`
field. -/
structure SubdomainInsight where
  fqdn : String
  records : List (String × List String)
  providers : ProviderBreakdown
deriving DecidableEq, Repr

/-- The pydantic model `DomainAnalysisResponse` of `models.py`.  Its
declared fields are exactly `domain`, `exists`, `apex_records`,
`providers` and `subdomains`: it has no `networks` field.  (`exists` is a
Lean keyword, hence the trailing underscore.) -/
structure DomainAnalysisResponse where
  domain : String
  exists_ : Bool
  apex_records : List (String × List String)
  providers : ProviderBreakdown
  subdomains : List SubdomainInsight
deriving DecidableEq, Repr

/-- Models the call `SubdomainInsight(fqdn=..., records=..., providers=...,
networks=...)` in `dns_service.py`: the model declares no `networks` field
and pydantic's default `extra="ignore"` configuration silently drops an
unknown keyword argument, so the `networks` argument never reaches the
constructed value. -/
def SubdomainInsight.construct (fqdn : String)
    (records : List (String × List String)) (providers : ProviderBreakdown)
    (networks : List String) : SubdomainInsight :=
  have _ := networks
  { fqdn := fqdn, records := records, providers := providers }

/-- Models the call `DomainAnalysisResponse(domain=..., exists=...,
apex_records=..., providers=..., subdomains=..., networks=...)` in
`dns_service.py`: the model declares no `networks` field and pydantic's
default `extra="ignore"` configuration silently drops the unknown keyword
argument. -/
def DomainAnalysisResponse.construct (domain : String) (exists_ : Bool)
    (apex_records : List (String × List String))
    (providers : ProviderBreakdown) (subdomains : List SubdomainInsight)
    (networks : List String) : DomainAnalysisResponse :=
  have _ := networks
  { domain := domain, exists_ := exists_, apex_records := apex_records,
    providers := providers, subdomains := subdomains }

/-- The `uses_google` flag of `_classify_provider`, on the lower-cased MX
hosts and TXT records. -/
def uses_google (mx_hosts_lower txt_lower : List String) : Bool :=
  mx_hosts_lower.any (fun host =>
    strContains host "google" || strContains host "aspmx")
  || txt_lower.any (fun txt => strContains txt "google-site-verification")

/-- The `uses_m365` flag of `_classify_provider`, on the lower-cased MX
hosts and TXT records. -/
def uses_m365 (mx_hosts_lower txt_lower : List String) : Bool :=
  mx_hosts_lower.any (fun host =>
    strContains host "outlook" || strContains host "protection.outlook.com")
  || txt_lower.any (fun txt => strContains txt "spf.protection.outlook.com")

/-- The `_classify_provider` function of `dns_service.py`. -/
def classify_provider (mx_hosts txt_records : List String) :
    ProviderBreakdown :=
  let mx_hosts_lower := mx_hosts.map pyLower
  let txt_lower := txt_records.map pyLower
  let label :=
    if uses_google mx_hosts_lower txt_lower
        && uses_m365 mx_hosts_lower txt_lower then
      "Google Workspace + Office 365"
    else if uses_google mx_hosts_lower txt_lower then "Google Workspace"
    else if uses_m365 mx_hosts_lower txt_lower then "Office 365"
    else "Other / Unknown"
  let evidence :=
    (if mx_hosts.isEmpty then [] else [("mx", mx_hosts)])
    ++ (if txt_records.isEmpty then [] else [("txt", txt_records)])
  { email := label, productivity := label, evidence := evidence }

/-- One entry of the compiled `PROVIDER_PATTERNS` table: a display name and
the four compiled pattern lists.  A compiled case-insensitive regular
expression is modelled abstractly by its `search` function
`String → Bool`. -/
structure Provider where
  name : String
  ns : List (String → Bool)
  mx : List (String → Bool)
  spf : List (String → Bool)
  asn : List (String → Bool)

/-- The `_match_patterns` function: does any value match any pattern? -/
def match_patterns (values : List String) (patterns : List (String → Bool)) :
    Bool :=
  values.any (fun value => patterns.any (fun pattern => pattern value))

/-- The body of the `for provider in PROVIDER_PATTERNS` loop of
`_detect_networks`, as a straight-line translation of its successive
`detected` updates. -/
def providerDetected (ns_records mx_records txt_records other_records :
    List String) (provider : Provider) : Bool :=
  let detected0 := false
  let detected1 :=
    if !provider.ns.isEmpty && match_patterns ns_records provider.ns then
      true
    else detected0
  let detected2 :=
    if !detected1 && (!provider.mx.isEmpty &&
        match_patterns mx_records provider.mx) then
      true
    else detected1
  let detected3 :=
    if !detected2 && !provider.spf.isEmpty then
      match_patterns txt_records provider.spf
    else detected2
  let detected4 :=
    if !detected3 && !provider.asn.isEmpty then
      match_patterns
        (if !other_records.isEmpty then other_records
         else if !ns_records.isEmpty then ns_records
         else mx_records)
        provider.asn
    else detected3
  detected4

/-- The `_detect_networks` function of `dns_service.py`, with the loaded
`PROVIDER_PATTERNS` table passed explicitly: empty table short-circuits to
`[]`; otherwise each detected provider's name enters a set, returned
sorted.  `other_records` concatenates, in dict order, the values of every
record type outside NS/MX/TXT. -/
def detect_networks (table : List Provider)
    (records : List (String × List String)) : List String :=
  if table.isEmpty then []
  else
    let ns_records := recordsGet records "NS"
    let mx_records := recordsGet records "MX"
    let txt_records := recordsGet records "TXT"
    let other_records :=
      (records.filter (fun p =>
        !(["NS", "MX", "TXT"] : List String).contains p.1)).flatMap
        (fun p => p.2)
    dedupSort
      ((table.filter
        (providerDetected ns_records mx_records txt_records other_records)).map
        Provider.name)

/-- The Network Fingerprinter's per-provider rule chain as the spec words
it (§4.5, rules 1–4): NS patterns against NS values; else MX patterns
against MX values; else SPF patterns against TXT values; else ASN patterns
against all values of types other than NS/MX/TXT if any exist, else NS
values, else MX values (first non-empty source wins).  Stated for the
refinement comparison with `providerDetected`. -/
def specDetected (records : List (String × List String)) (provider : Provider) :
    Bool :=
  let ns_records := recordsGet records "NS"
  let mx_records := recordsGet records "MX"
  let txt_records := recordsGet records "TXT"
  let other_records :=
    (records.filter (fun p =>
      !(["NS", "MX", "TXT"] : List String).contains p.1)).flatMap
      (fun p => p.2)
  let asn_source :=
    if !other_records.isEmpty then other_records
    else if !ns_records.isEmpty then ns_records
    else mx_records
  if !provider.ns.isEmpty && match_patterns ns_records provider.ns then true
  else if !provider.mx.isEmpty && match_patterns mx_records provider.mx then
    true
  else if !provider.spf.isEmpty && match_patterns txt_records provider.spf then
    true
  else if !provider.asn.isEmpty then match_patterns asn_source provider.asn
  else false

/-- The Network Fingerprinter as the spec words it: empty table is a no-op,
otherwise the sorted deduplicated names of the providers the rule chain
detects. -/
def detectNetworksSpec (table : List Provider)
    (records : List (String × List String)) : List String :=
  if table.isEmpty then []
  else dedupSort ((table.filter (specDetected records)).map Provider.name)

/-- The candidate list built by `_enumerate_subdomains` from the wordlist
lines: `[line.strip() for line in handle if line.strip() and not
line.startswith("#")]`.  Note the comment test runs on the *untrimmed*
line. -/
def candidate_lines (lines : List String) : List String :=
  (lines.filter (fun line =>
    !(pyStrip line).isEmpty && !strStartsWith line "#")).map pyStrip

/-- The `_probe` closure of `_enumerate_subdomains` for one candidate:
aggregate records for `<candidate>.<domain>`; if empty, no insight;
otherwise classify, fingerprint, and construct a `SubdomainInsight` (whose
`networks` keyword argument the model drops, see
`SubdomainInsight.construct`). -/
def probeCandidate (oracle : DnsOracle) (table : List Provider)
    (domain candidate : String) : Option SubdomainInsight :=
  let fqdn := candidate ++ "." ++ domain
  let records := gather_dns_records oracle fqdn
  if records.isEmpty then none
  else
    let providers :=
      classify_provider (recordsGet records "MX") (recordsGet records "TXT")
    let networks := detect_networks table records
    some (SubdomainInsight.construct fqdn records providers networks)

/-- Sort order used by `insights.sort(key=lambda item: item.fqdn)`. -/
def byFqdn (a b : SubdomainInsight) : Prop := strLe a.fqdn b.fqdn = true

instance : DecidableRel byFqdn := fun a b =>
  inferInstanceAs (Decidable (strLe a.fqdn b.fqdn = true))

/-- The `_enumerate_subdomains` coroutine, parametrised by the completion
order of the concurrently scheduled probes: `completionOrder` rearranges
the per-candidate insight list that the probes append to as they finish
(any interleaving yields a permutation of the sequential list, which the
theorems quantify over).  `max_concurrency` only bounds scheduling
(see `EnumStep`) and does not affect the value computed. -/
def enumerateSubdomainsWith
    (completionOrder : List SubdomainInsight → List SubdomainInsight)
    (oracle : DnsOracle) (table : List Provider) (domain : String)
    (wordlist : Option (List String)) (max_concurrency : Nat) :
    List SubdomainInsight :=
  have _ := max_concurrency
  match wordlist with
  | none => []
  | some lines =>
    let candidates := candidate_lines lines
    let insights :=
      completionOrder (candidates.filterMap (probeCandidate oracle table domain))
    insights.insertionSort byFqdn

/-- The `_enumerate_subdomains` coroutine with the sequential completion
order. -/
def enumerate_subdomains (oracle : DnsOracle) (table : List Provider)
    (domain : String) (wordlist : Option (List String))
    (max_concurrency : Nat) : List SubdomainInsight :=
  enumerateSubdomainsWith id oracle table domain wordlist max_concurrency

/-- The `analyze_domain` coroutine of `dns_service.py`.  The wordlist
argument is the resolved content of `wordlist or WORDLIST_DEFAULT`. -/
def analyze_domain (oracle : DnsOracle) (table : List Provider)
    (domain : String) (include_subdomains : Bool)
    (wordlist : Option (List String)) (max_concurrency : Nat) :
    DomainAnalysisResponse :=
  if verify_domain oracle domain then
    let apex_records := gather_dns_records oracle domain
    let providers :=
      classify_provider (recordsGet apex_records "MX")
        (recordsGet apex_records "TXT")
    let networks := detect_networks table apex_records
    let subdomains :=
      if include_subdomains then
        enumerate_subdomains oracle table domain wordlist max_concurrency
      else []
    DomainAnalysisResponse.construct domain true apex_records providers
      subdomains networks
  else
    DomainAnalysisResponse.construct domain false []
      { email := "Unknown", productivity := "Unknown", evidence := [] }
      [] []

/-!
Query traces.  Each `...Queries` definition shadows the DNS queries (name,
record type) that the corresponding coroutine of `dns_service.py` issues,
in program order, so that "no further network calls are made" becomes a
provable statement.
-/

/-- Queries issued by one `_resolve` call. -/
def resolveQueries (domain record_type : String) : List (String × String) :=
  [(domain, record_type)]

/-- Queries issued by `verify_domain`: its three `_resolve` calls. -/
def verifyQueries (domain : String) : List (String × String) :=
  resolveQueries domain "SOA" ++ resolveQueries domain "A"
    ++ resolveQueries domain "MX"

/-- Queries issued by `gather_dns_records`: one per record type. -/
def gatherQueries (domain : String) : List (String × String) :=
  RECORD_TYPES.flatMap (fun record_type => resolveQueries domain record_type)

/-- Queries issued by `_enumerate_subdomains`: none for an absent wordlist,
otherwise one aggregate per candidate. -/
def enumerateQueries (domain : String) (wordlist : Option (List String)) :
    List (String × String) :=
  match wordlist with
  | none => []
  | some lines =>
    (candidate_lines lines).flatMap
      (fun candidate => gatherQueries (candidate ++ "." ++ domain))

/-- Queries issued by `analyze_domain`: the verifier's, then — only when
the domain verified — the apex aggregation's and (when requested) the
enumerator's. -/
def analyzeQueries (oracle : DnsOracle) (domain : String)
    (include_subdomains : Bool) (wordlist : Option (List String)) :
    List (String × String) :=
  verifyQueries domain ++
    (if verify_domain oracle domain then
      gatherQueries domain ++
        (if include_subdomains then enumerateQueries domain wordlist else [])
    else [])

/-!
Concurrency model of the subdomain enumerator.  `asyncio.Semaphore
(max_concurrency)` is a counting semaphore; each `_probe` task executes
`async with semaphore: records = await gather_dns_records(fqdn)`, i.e. it
acquires a permit (blocking while the count is zero), runs its aggregate
DNS query in flight, and releases the permit when the query completes.
-/

/-- Phase of one `_probe` task relative to its `async with semaphore`
block: still waiting, holding a permit with its aggregate query in
flight, or finished with the block. -/
inductive ProbePhase where
  | pending
  | inflight
  | finished
deriving DecidableEq, Repr

/-- Scheduler state of `_enumerate_subdomains`: the semaphore's remaining
permit count and the phase of each probe task. -/
structure EnumState where
  sem : Nat
  tasks : List ProbePhase
deriving DecidableEq, Repr

/-- Initial state: `asyncio.Semaphore(max_concurrency)` holds all
`max_concurrency` permits and every probe task is pending. -/
def enumInit (max_concurrency candidates : Nat) : EnumState :=
  { sem := max_concurrency, tasks := List.replicate candidates .pending }

/-- One scheduler step: a pending task acquires a permit (possible only
while the count is positive) and its aggregate query goes in flight, or an
in-flight task's query completes and it releases its permit. -/
inductive EnumStep : EnumState → EnumState → Prop where
  | acquire (s : EnumState) (i : Nat) (h : s.tasks[i]? = some .pending)
      (hsem : 0 < s.sem) :
      EnumStep s { sem := s.sem - 1, tasks := s.tasks.set i .inflight }
  | release (s : EnumState) (i : Nat) (h : s.tasks[i]? = some .inflight) :
      EnumStep s { sem := s.sem + 1, tasks := s.tasks.set i .finished }

/-- Number of probes whose aggregate DNS query is in flight. -/
def inflightCount (s : EnumState) : Nat := s.tasks.count .inflight

/-- States the enumerator's scheduler can reach from the initial state. -/
def enumReachable (max_concurrency candidates : Nat) (s : EnumState) :
    Prop :=
  Relation.ReflTransGen EnumStep (enumInit max_concurrency candidates) s

/-!
Supporting lemmas.
-/

theorem charsLe_iff_not_lex : ∀ (l1 l2 : List Char),
    charsLe l1 l2 = true ↔ ¬ List.Lex (· < ·) l2 l1
  | [], l2 => by
    simp only [charsLe]
    constructor
    · intro _ h
      cases h
    · intro _
      trivial
  | c :: cs, [] => by
    simp only [charsLe]
    constructor
    · intro h
      exact absurd h (by simp)
    · intro h
      exact absurd (List.Lex.nil) h
  | c :: cs, d :: ds => by
    rcases lt_trichotomy c d with hlt | heq | hgt
    · simp only [charsLe, if_pos hlt]
      constructor
      · intro _ h
        cases h with
        | cons h' => exact lt_irrefl c hlt
        | rel h' => exact lt_asymm hlt h'
      · intro _
        trivial
    · subst heq
      simp only [charsLe, if_neg (lt_irrefl c)]
      rw [charsLe_iff_not_lex cs ds]
      constructor
      · intro h hl
        cases hl with
        | cons h' => exact h h'
        | rel h' => exact lt_irrefl c h'
      · intro h hl
        exact h (List.Lex.cons hl)
    · have hnlt : ¬ c < d := lt_asymm hgt
      simp only [charsLe, if_neg hnlt, if_pos hgt]
      constructor
      · intro h
        exact absurd h (by simp)
      · intro h
        exact absurd (List.Lex.rel hgt) h

/-- The executable string comparison agrees with the lexicographic linear
order on `String`. -/
theorem strLe_iff (a b : String) : strLe a b = true ↔ a ≤ b := by
  rw [String.le_iff_toList_le, ← not_lt]
  exact charsLe_iff_not_lex a.toList b.toList

instance : IsTotal String (fun a b => strLe a b = true) :=
  ⟨fun a b => by
    rcases le_total a b with h | h
    · exact Or.inl ((strLe_iff a b).mpr h)
    · exact Or.inr ((strLe_iff b a).mpr h)⟩

instance : IsTrans String (fun a b => strLe a b = true) :=
  ⟨fun a b c hab hbc =>
    (strLe_iff a c).mpr (le_trans ((strLe_iff a b).mp hab) ((strLe_iff b c).mp hbc))⟩

instance : IsAntisymm String (fun a b => strLe a b = true) :=
  ⟨fun a b hab hba =>
    le_antisymm ((strLe_iff a b).mp hab) ((strLe_iff b a).mp hba)⟩

theorem dedupSort_perm (l : List String) : (dedupSort l).Perm l.dedup :=
  List.perm_insertionSort _ _

theorem mem_dedupSort (l : List String) (a : String) :
    a ∈ dedupSort l ↔ a ∈ l := by
  rw [(dedupSort_perm l).mem_iff, List.mem_dedup]

theorem dedupSort_nodup (l : List String) : (dedupSort l).Nodup :=
  (dedupSort_perm l).symm.nodup (List.nodup_dedup l)

theorem dedupSort_sorted_le (l : List String) :
    (dedupSort l).Sorted (· ≤ ·) := by
  have h := List.sorted_insertionSort (fun a b => strLe a b = true) l.dedup
  exact h.imp (fun hab => (strLe_iff _ _).mp hab)

theorem dedupSort_sorted_lt (l : List String) :
    (dedupSort l).Sorted (· < ·) :=
  (dedupSort_sorted_le l).lt_of_le (dedupSort_nodup l)

/-- A probe result tested by `any(isinstance(item, list) and item ...)` in
`verify_domain` counts exactly when it is a non-empty list (an exception
object captured by `return_exceptions=True` is not a list). -/
theorem ok_nonempty_iff (e : Except Unit (List String)) :
    (match e with | .ok l => !l.isEmpty | .error _ => false) = true ↔
      ∃ l, e = .ok l ∧ l ≠ [] := by
  cases e with
  | ok l => simp
  | error u => simp

/-- Whatever the oracle does, the value `gather_dns_records` keeps for a
record type is strictly sorted (hence sorted and duplicate-free). -/
theorem gatherValue_sorted (oracle : DnsOracle) (domain record_type : String) :
    (gatherValue oracle domain record_type).Sorted (· < ·) := by
  unfold gatherValue resolveAdapter
  cases h : oracle domain record_type with
  | answers vals =>
    cases vals with
    | none => simp
    | some l => exact dedupSort_sorted_lt _
  | dnsError => simp
  | raised => simp

/-- Mapping first components over a `filterMap` whose emitted pairs carry
their source element yields a sublist of the source list. -/
theorem map_fst_filterMap_sublist {α β : Type} (f : α → Option (α × β))
    (hf : ∀ a p, f a = some p → p.1 = a) :
    ∀ l : List α, ((l.filterMap f).map Prod.fst).Sublist l
  | [] => by simp
  | a :: t => by
    cases hfa : f a with
    | none =>
      simp only [List.filterMap_cons, hfa]
      exact (map_fst_filterMap_sublist f hf t).cons a
    | some p =>
      simp only [List.filterMap_cons, hfa, List.map_cons, hf a p hfa]
      exact (map_fst_filterMap_sublist f hf t).cons₂ a

instance : IsTotal SubdomainInsight byFqdn :=
  ⟨fun a b => total_of (fun x y : String => strLe x y = true) a.fqdn b.fqdn⟩

instance : IsTrans SubdomainInsight byFqdn :=
  ⟨fun _ _ _ hab hbc =>
    Trans.trans (r := fun x y : String => strLe x y = true)
      (s := fun x y : String => strLe x y = true) hab hbc⟩

/-- A common suffix cancels on the right in string concatenation. -/
theorem string_append_right_cancel {a b s : String} (h : a ++ s = b ++ s) :
    a = b := by
  have hd := congrArg String.data h
  simp only [String.data_append] at hd
  cases a
  cases b
  exact congrArg String.mk (List.append_cancel_right hd)

/-- A produced insight's fully-qualified name is `<candidate>.<domain>`. -/
theorem probeCandidate_fqdn (oracle : DnsOracle) (table : List Provider)
    (domain candidate : String) (a : SubdomainInsight)
    (h : probeCandidate oracle table domain candidate = some a) :
    a.fqdn = candidate ++ "." ++ domain := by
  unfold probeCandidate at h
  by_cases he :
      (gather_dns_records oracle (candidate ++ "." ++ domain)).isEmpty
  · simp [he] at h
  · simp only [he, Bool.false_eq_true, if_false, Option.some.injEq] at h
    rw [← h]
    rfl

/-- Distinct candidates yield insights with distinct fully-qualified
names, so an insight in the probe output is determined by its `fqdn`. -/
theorem probe_output_fqdn_inj (oracle : DnsOracle) (table : List Provider)
    (domain : String) (candidates : List String) :
    ∀ a ∈ candidates.filterMap (probeCandidate oracle table domain),
      ∀ b ∈ candidates.filterMap (probeCandidate oracle table domain),
        a.fqdn = b.fqdn → a = b := by
  intro a ha b hb heq
  rcases List.mem_filterMap.mp ha with ⟨ca, _, hpa⟩
  rcases List.mem_filterMap.mp hb with ⟨cb, _, hpb⟩
  have hfa := probeCandidate_fqdn oracle table domain ca a hpa
  have hfb := probeCandidate_fqdn oracle table domain cb b hpb
  have hcc : ca ++ ("." ++ domain) = cb ++ ("." ++ domain) := by
    have := hfa ▸ hfb ▸ heq
    simpa [String.append_assoc] using this
  have : ca = cb := string_append_right_cancel hcc
  subst this
  rw [hpa] at hpb
  exact Option.some.inj hpb

/-- Two sorted lists that are permutations of each other and whose
elements are determined by their sort key are equal: the enumerator's
final sort makes the output independent of probe completion order. -/
theorem eq_of_perm_of_sorted_byFqdn :
    ∀ (l1 l2 : List SubdomainInsight), l1.Perm l2 →
      (∀ a ∈ l1, ∀ b ∈ l1, a.fqdn = b.fqdn → a = b) →
      l1.Sorted byFqdn → l2.Sorted byFqdn → l1 = l2
  | [], l2, hp, _, _, _ => hp.nil_eq
  | a :: t1, l2, hp, hinj, h1, h2 => by
    cases l2 with
    | nil => exact absurd hp.symm.nil_eq (by simp)
    | cons b t2 =>
      have haIn : a ∈ b :: t2 := hp.subset (List.mem_cons_self a t1)
      have hbIn : b ∈ a :: t1 := hp.symm.subset (List.mem_cons_self b t2)
      have hab : a = b := by
        rcases List.mem_cons.mp haIn with h | haT2
        · exact h
        · rcases List.mem_cons.mp hbIn with h' | hbT1
          · exact h'.symm
          · have hba : byFqdn b a := List.rel_of_sorted_cons h2 a haT2
            have hab' : byFqdn a b := List.rel_of_sorted_cons h1 b hbT1
            refine hinj a (List.mem_cons_self a t1) b hbIn ?_
            exact le_antisymm ((strLe_iff _ _).mp hab') ((strLe_iff _ _).mp hba)
      subst hab
      have htails := eq_of_perm_of_sorted_byFqdn t1 t2 hp.cons_inv
        (fun x hx y hy =>
          hinj x (List.mem_cons_of_mem a hx) y (List.mem_cons_of_mem a hy))
        h1.of_cons h2.of_cons
      rw [htails]

/-- Sorting any permutation of a key-determined list gives the same result
as sorting the list itself. -/
theorem insertionSort_byFqdn_eq (base l : List SubdomainInsight)
    (hinj : ∀ a ∈ base, ∀ b ∈ base, a.fqdn = b.fqdn → a = b)
    (hl : l.Perm base) :
    l.insertionSort byFqdn = base.insertionSort byFqdn := by
  have hperm : (l.insertionSort byFqdn).Perm (base.insertionSort byFqdn) :=
    ((List.perm_insertionSort byFqdn l).trans hl).trans
      (List.perm_insertionSort byFqdn base).symm
  have hmem : ∀ x ∈ l.insertionSort byFqdn, x ∈ base := fun x hx =>
    hl.subset ((List.perm_insertionSort byFqdn l).subset hx)
  exact eq_of_perm_of_sorted_byFqdn _ _ hperm
    (fun x hx y hy => hinj x (hmem x hx) y (hmem y hy))
    (List.sorted_insertionSort byFqdn l)
    (List.sorted_insertionSort byFqdn base)

/-!
Claim theorems.
-/

/-- C1: the claim that every `SubdomainInsight` contains the
`NetworkMatches` computed for its `RecordSet` and that `DomainAnalysis`
contains the apex `NetworkMatches` fails on the code: the pydantic models
in `models.py` declare no `networks` field, so the `networks=` keyword
argument that `dns_service.py` passes at construction is silently dropped
(pydantic's default `extra="ignore"`), and the network-fingerprinting
output is discarded.  This theorem evaluates the constructors at a failing
input: the constructed values do not depend on the `networks` argument. -/
theorem C1_networks_discarded :
    SubdomainInsight.construct "www.example.com" [("A", ["203.0.113.7"])]
        (classify_provider [] []) ["Cloudflare"]
      = SubdomainInsight.construct "www.example.com" [("A", ["203.0.113.7"])]
        (classify_provider [] []) [] ∧
    DomainAnalysisResponse.construct "example.com" true
        [("A", ["203.0.113.7"])] (classify_provider [] []) [] ["Cloudflare"]
      = DomainAnalysisResponse.construct "example.com" true
        [("A", ["203.0.113.7"])] (classify_provider [] []) [] [] :=
  ⟨rfl, rfl⟩

/-- C2: for every oracle and domain, `gather_dns_records` returns a map
whose keys are distinct and drawn from `RECORD_TYPES` = {A, AAAA, MX, TXT,
NS, CNAME}, and every present key's value list is non-empty and strictly
sorted lexicographically (strict sortedness gives sorted + duplicate-free
in one statement). -/
theorem C2_gather_records (oracle : DnsOracle) (domain : String) :
    ((gather_dns_records oracle domain).map Prod.fst).Nodup ∧
    (∀ p ∈ gather_dns_records oracle domain,
      p.1 ∈ RECORD_TYPES ∧ p.2 ≠ [] ∧ p.2.Sorted (· < ·)) := by
  constructor
  · refine (map_fst_filterMap_sublist _ ?_ RECORD_TYPES).nodup (by decide)
    intro a p hp
    by_cases hv : (gatherValue oracle domain a).isEmpty
    · simp [hv] at hp
    · simp only [hv, Bool.false_eq_true, if_false, Option.some.injEq] at hp
      rw [← hp]
  · intro p hp
    rw [gather_dns_records, List.mem_filterMap] at hp
    rcases hp with ⟨rt, hrt, hsome⟩
    by_cases hv : (gatherValue oracle domain rt).isEmpty
    · simp [hv] at hsome
    · simp only [hv, Bool.false_eq_true, if_false, Option.some.injEq] at hsome
      rw [← hsome]
      refine ⟨hrt, ?_, gatherValue_sorted oracle domain rt⟩
      simpa [List.isEmpty_iff] using hv

/-- Witness for C2 at a concrete oracle: an A answer with a trailing root
dot produces the single key "A" with its stripped, non-empty, sorted
value. -/
theorem C2_witness :
    ("A", ["203.0.113.7"]) ∈ gather_dns_records
        (fun _ record_type =>
          if record_type == "A" then .answers (some ["203.0.113.7."])
          else .dnsError) "example.com" ∧
    ("A" : String) ∈ RECORD_TYPES ∧ (["203.0.113.7"] : List String) ≠ [] ∧
    (["203.0.113.7"] : List String).Sorted (· < ·) :=
  ⟨by decide,
   (C2_gather_records
      (fun _ record_type =>
        if record_type == "A" then .answers (some ["203.0.113.7."])
        else .dnsError) "example.com").2
     ("A", ["203.0.113.7"]) (by decide)⟩

/-- C3: the Resolver Adapter maps every DNS-level failure (nonexistent
domain, no nameservers, no answer, timeout, any resolution exception — all
modelled by `DnsOutcome.dnsError`) and a `None` answer to `.ok []` rather
than raising; and it maps a successful answer to its values with trailing
root dots stripped, deduplicated and sorted (strict sortedness gives both
sortedness and freedom from duplicates; the two membership conjuncts state
that the result is exactly the stripped values). -/
theorem C3_resolver_adapter (oracle : DnsOracle) (domain record_type : String) :
    (oracle domain record_type = .dnsError →
      resolveAdapter oracle domain record_type = .ok []) ∧
    (oracle domain record_type = .answers none →
      resolveAdapter oracle domain record_type = .ok []) ∧
    (∀ vals, oracle domain record_type = .answers (some vals) →
      resolveAdapter oracle domain record_type =
        .ok (dedupSort (vals.map rstripDot)) ∧
      (dedupSort (vals.map rstripDot)).Sorted (· < ·) ∧
      (∀ v ∈ dedupSort (vals.map rstripDot), ∃ w ∈ vals, v = rstripDot w) ∧
      (∀ w ∈ vals, rstripDot w ∈ dedupSort (vals.map rstripDot))) := by
  refine ⟨fun h => ?_, fun h => ?_, fun vals h => ?_⟩
  · simp [resolveAdapter, h]
  · simp [resolveAdapter, h]
  · refine ⟨by simp [resolveAdapter, h], dedupSort_sorted_lt _, ?_, ?_⟩
    · intro v hv
      rw [mem_dedupSort] at hv
      rcases List.mem_map.mp hv with ⟨w, hw, rfl⟩
      exact ⟨w, hw, rfl⟩
    · intro w hw
      rw [mem_dedupSort]
      exact List.mem_map_of_mem _ hw

/-- Witness for C3 at concrete oracles, discharging each hypothesis: a
DNS-level failure and a `None` answer both give `.ok []`, and a raw NS
answer with duplicates and trailing root dots comes back stripped,
deduplicated and sorted. -/
theorem C3_witness :
    resolveAdapter (fun _ _ => .dnsError) "example.com" "A" = .ok [] ∧
    resolveAdapter (fun _ _ => .answers none) "example.com" "TXT" = .ok [] ∧
    resolveAdapter
        (fun _ _ => .answers
          (some ["ns2.example.com.", "ns1.example.com.", "ns2.example.com."]))
        "example.com" "NS"
      = .ok (dedupSort
          (["ns2.example.com.", "ns1.example.com.",
            "ns2.example.com."].map rstripDot)) ∧
    dedupSort
        (["ns2.example.com.", "ns1.example.com.",
          "ns2.example.com."].map rstripDot)
      = ["ns1.example.com", "ns2.example.com"] :=
  ⟨(C3_resolver_adapter (fun _ _ => .dnsError) "example.com" "A").1 rfl,
   (C3_resolver_adapter (fun _ _ => .answers none) "example.com" "TXT").2.1 rfl,
   ((C3_resolver_adapter
      (fun _ _ => .answers
        (some ["ns2.example.com.", "ns1.example.com.", "ns2.example.com."]))
      "example.com" "NS").2.2 _ rfl).1,
   by decide⟩

/-- C4: `_enumerate_subdomains` returns `[]` for an absent wordlist under
every completion order; a single line survives to the candidate list
exactly when it is non-blank after trimming and the (untrimmed) line does
not begin with "#", and its probed form is its trimmed text; the probes
issued are exactly one aggregate per candidate; an insight exists for a
candidate exactly when its aggregated `RecordSet` is non-empty (an empty
one is discarded silently); and for every completion order the returned
list is sorted by fully-qualified name and equal to the
sequential-completion result — independent of completion order. -/
theorem C4_enumerate_subdomains (oracle : DnsOracle) (table : List Provider)
    (domain : String) (max_concurrency : Nat) :
    (∀ completionOrder, enumerateSubdomainsWith completionOrder oracle table
      domain none max_concurrency = []) ∧
    (∀ line, candidate_lines [line] =
      if !(pyStrip line).isEmpty && !strStartsWith line "#" then
        [pyStrip line]
      else []) ∧
    (∀ lines, enumerateQueries domain (some lines) =
      (candidate_lines lines).flatMap
        (fun candidate => gatherQueries (candidate ++ "." ++ domain))) ∧
    (∀ candidate, probeCandidate oracle table domain candidate = none ↔
      gather_dns_records oracle (candidate ++ "." ++ domain) = []) ∧
    (∀ lines completionOrder,
      (∀ l : List SubdomainInsight, (completionOrder l).Perm l) →
      enumerateSubdomainsWith completionOrder oracle table domain (some lines)
          max_concurrency
        = enumerate_subdomains oracle table domain (some lines)
            max_concurrency ∧
      (enumerateSubdomainsWith completionOrder oracle table domain
          (some lines) max_concurrency).Sorted
        (fun a b => a.fqdn ≤ b.fqdn) ∧
      (enumerateSubdomainsWith completionOrder oracle table domain
          (some lines) max_concurrency).Perm
        ((candidate_lines lines).filterMap
          (probeCandidate oracle table domain))) := by
  refine ⟨fun _ => rfl, ?_, fun _ => rfl, ?_, ?_⟩
  · intro line
    cases h : (!(pyStrip line).isEmpty && !strStartsWith line "#") <;>
      simp [candidate_lines, h]
  · intro candidate
    unfold probeCandidate
    by_cases h :
        (gather_dns_records oracle (candidate ++ "." ++ domain)).isEmpty
    · simp [h, List.isEmpty_iff.mp h]
    · simp only [h, Bool.false_eq_true, if_false]
      constructor
      · intro hnone
        exact absurd hnone (by simp)
      · intro hnil
        exact absurd (List.isEmpty_iff.mpr hnil) h
  · intro lines completionOrder hco
    have hinj := probe_output_fqdn_inj oracle table domain
      (candidate_lines lines)
    have heq : enumerateSubdomainsWith completionOrder oracle table domain
        (some lines) max_concurrency
      = enumerate_subdomains oracle table domain (some lines)
          max_concurrency := by
      unfold enumerate_subdomains enumerateSubdomainsWith
      exact insertionSort_byFqdn_eq _ _ hinj (hco _)
    refine ⟨heq, ?_, ?_⟩
    · have hs : (enumerateSubdomainsWith completionOrder oracle table domain
          (some lines) max_concurrency).Sorted byFqdn :=
        List.sorted_insertionSort byFqdn _
      exact hs.imp (fun hab => (strLe_iff _ _).mp hab)
    · exact (List.perm_insertionSort byFqdn _).trans (hco _)

/-- Witness for C4 on a concrete oracle and wordlist: of the four lines
only "www" and "mail" are probed, only `www.example.com` resolves, and a
reversed completion order still yields the same singleton sorted output. -/
theorem C4_witness :
    enumerateSubdomainsWith List.reverse
        (fun name record_type =>
          if name == "www.example.com" && record_type == "A" then
            .answers (some ["203.0.113.10"])
          else .dnsError)
        [] "example.com" (some ["www", "#comment", "   ", "mail"]) 2
      = enumerate_subdomains
          (fun name record_type =>
            if name == "www.example.com" && record_type == "A" then
              .answers (some ["203.0.113.10"])
            else .dnsError)
          [] "example.com" (some ["www", "#comment", "   ", "mail"]) 2 ∧
    enumerate_subdomains
        (fun name record_type =>
          if name == "www.example.com" && record_type == "A" then
            .answers (some ["203.0.113.10"])
          else .dnsError)
        [] "example.com" (some ["www", "#comment", "   ", "mail"]) 2
      = [{ fqdn := "www.example.com",
           records := [("A", ["203.0.113.10"])],
           providers := { email := "Other / Unknown",
                          productivity := "Other / Unknown",
                          evidence := [] } }] ∧
    candidate_lines ["www", "#comment", "   ", "mail"] = ["www", "mail"] :=
  ⟨((C4_enumerate_subdomains
      (fun name record_type =>
        if name == "www.example.com" && record_type == "A" then
          .answers (some ["203.0.113.10"])
        else .dnsError)
      [] "example.com" 2).2.2.2.2
      ["www", "#comment", "   ", "mail"] List.reverse
      (fun l => l.reverse_perm)).1,
   by decide, by decide⟩

/-- The loop body of `_detect_networks` computes exactly the spec's
else-if rule chain: NS, else MX, else SPF, else ASN against the first
non-empty of (other-typed values, NS values, MX values). -/
theorem providerDetected_eq_specDetected
    (records : List (String × List String)) (provider : Provider) :
    providerDetected (recordsGet records "NS") (recordsGet records "MX")
        (recordsGet records "TXT")
        ((records.filter (fun p =>
          !(["NS", "MX", "TXT"] : List String).contains p.1)).flatMap
          (fun p => p.2)) provider
      = specDetected records provider := by
  simp only [providerDetected, specDetected]
  cases h1 : (!provider.ns.isEmpty
      && match_patterns (recordsGet records "NS") provider.ns) <;>
    cases h2 : (!provider.mx.isEmpty
        && match_patterns (recordsGet records "MX") provider.mx) <;>
      cases h3 : provider.spf.isEmpty <;>
        cases h4 : provider.asn.isEmpty <;>
          first
            | (simp [h1, h2, h3, h4]; done)
            | (simp [h1, h2, h3, h4]
               cases h5 :
                 match_patterns (recordsGet records "TXT") provider.spf <;>
                   simp [h5])

/-- C5: `_detect_networks` returns the empty set for the empty pattern
table; its output is strictly sorted (hence duplicate-free: each provider
appears at most once); and it equals the spec-side fingerprinter
`detectNetworksSpec`, whose per-provider rule chain attempts ASN patterns
only after the NS, MX and SPF rules failed, matching them against the
other-typed record values if any exist, else NS values, else MX values. -/
theorem C5_detect_networks (table : List Provider)
    (records : List (String × List String)) :
    detect_networks [] records = [] ∧
    (detect_networks table records).Sorted (· < ·) ∧
    (detect_networks table records).Nodup ∧
    detect_networks table records = detectNetworksSpec table records := by
  refine ⟨by simp [detect_networks], ?_, ?_, ?_⟩
  · unfold detect_networks
    by_cases h : table.isEmpty
    · simp [h]
    · simp only [h, Bool.false_eq_true, if_false]
      exact dedupSort_sorted_lt _
  · unfold detect_networks
    by_cases h : table.isEmpty
    · simp [h]
    · simp only [h, Bool.false_eq_true, if_false]
      exact dedupSort_nodup _
  · unfold detect_networks detectNetworksSpec
    by_cases h : table.isEmpty
    · simp [h]
    · simp only [h, Bool.false_eq_true, if_false]
      rw [List.filter_congr
        (fun p _ => providerDetected_eq_specDetected records p)]

/-- Witness for C5: a provider with only ASN patterns is detected from the
A-record values (NS and MX absent, so the other-typed values are the first
non-empty ASN source), and the code agrees with the spec-side rule chain
there. -/
theorem C5_witness :
    detect_networks
        [{ name := "Cloudflare", ns := [], mx := [], spf := [],
           asn := [fun s => strContains s "13335"] }]
        [("A", ["198.41.128.1 as13335"])]
      = ["Cloudflare"] ∧
    detect_networks
        [{ name := "Cloudflare", ns := [], mx := [], spf := [],
           asn := [fun s => strContains s "13335"] }]
        [("A", ["198.41.128.1 as13335"])]
      = detectNetworksSpec
          [{ name := "Cloudflare", ns := [], mx := [], spf := [],
             asn := [fun s => strContains s "13335"] }]
          [("A", ["198.41.128.1 as13335"])] :=
  ⟨by decide,
   (C5_detect_networks
      [{ name := "Cloudflare", ns := [], mx := [], spf := [],
         asn := [fun s => strContains s "13335"] }]
      [("A", ["198.41.128.1 as13335"])]).2.2.2⟩

/-- C6: `_classify_provider` gives the email and productivity labels the
same value, that value is determined by the two case-insensitive substring
flags through the stated priority order, and the evidence map carries key
"mx" with the raw MX list exactly when that list is non-empty and key
"txt" with the raw TXT list exactly when that list is non-empty,
independent of which labelling rule fired. -/
theorem C6_classify_provider (mx_hosts txt_records : List String) :
    (classify_provider mx_hosts txt_records).email =
      (classify_provider mx_hosts txt_records).productivity ∧
    (classify_provider mx_hosts txt_records).email =
      (if uses_google (mx_hosts.map pyLower) (txt_records.map pyLower)
          && uses_m365 (mx_hosts.map pyLower) (txt_records.map pyLower) then
        "Google Workspace + Office 365"
      else if uses_google (mx_hosts.map pyLower) (txt_records.map pyLower) then
        "Google Workspace"
      else if uses_m365 (mx_hosts.map pyLower) (txt_records.map pyLower) then
        "Office 365"
      else "Other / Unknown") ∧
    ((classify_provider mx_hosts txt_records).evidence.map Prod.fst =
      (if mx_hosts = [] then [] else ["mx"]) ++
        (if txt_records = [] then [] else ["txt"])) ∧
    (("mx", mx_hosts) ∈ (classify_provider mx_hosts txt_records).evidence ↔
      mx_hosts ≠ []) ∧
    (("txt", txt_records) ∈ (classify_provider mx_hosts txt_records).evidence ↔
      txt_records ≠ []) := by
  refine ⟨rfl, rfl, ?_, ?_, ?_⟩ <;>
    by_cases hmx : mx_hosts = [] <;> by_cases htxt : txt_records = [] <;>
      simp [classify_provider, hmx, htxt]

/-- Witness for C6: Google MX evidence alone yields the "Google Workspace"
label on both fields, with only the "mx" evidence key. -/
theorem C6_witness :
    classify_provider ["ASPMX.L.GOOGLE.COM"] [] =
      { email := "Google Workspace", productivity := "Google Workspace",
        evidence := [("mx", ["ASPMX.L.GOOGLE.COM"])] } ∧
    (("mx", ["ASPMX.L.GOOGLE.COM"])
        ∈ (classify_provider ["ASPMX.L.GOOGLE.COM"] []).evidence ↔
      (["ASPMX.L.GOOGLE.COM"] : List String) ≠ []) :=
  ⟨by decide, (C6_classify_provider ["ASPMX.L.GOOGLE.COM"] []).2.2.2.1⟩

/-- C7: `verify_domain` returns true exactly when at least one of the SOA,
A, MX probes returns (rather than raises) a non-empty list; it is a total
Boolean function, so every individual probe failure (the `.error` branch
of the adapter, captured by `return_exceptions=True`) is tolerated. -/
theorem C7_verify_domain (oracle : DnsOracle) (domain : String) :
    verify_domain oracle domain = true ↔
      ((∃ l, resolveAdapter oracle domain "SOA" = .ok l ∧ l ≠ []) ∨
       (∃ l, resolveAdapter oracle domain "A" = .ok l ∧ l ≠ []) ∨
       (∃ l, resolveAdapter oracle domain "MX" = .ok l ∧ l ≠ [])) := by
  unfold verify_domain
  simp only [List.any_cons, List.any_nil, Bool.or_eq_true, Bool.or_false]
  rw [ok_nonempty_iff, ok_nonempty_iff, ok_nonempty_iff]

/-- Witness for C7: a domain whose A probe succeeds verifies even though
SOA and MX fail at the DNS level. -/
theorem C7_witness :
    verify_domain
      (fun _ record_type =>
        if record_type == "A" then .answers (some ["93.184.216.34"])
        else .dnsError)
      "example.com" = true :=
  (C7_verify_domain
      (fun _ record_type =>
        if record_type == "A" then .answers (some ["93.184.216.34"])
        else .dnsError)
      "example.com").mpr
    (Or.inr (Or.inl ⟨["93.184.216.34"], rfl, by decide⟩))

/-- C8: when existence verification fails, `analyze_domain` returns the
fixed response with `exists=false`, empty apex records, the
Unknown/Unknown provider breakdown with empty evidence, and an empty
subdomain list (the constructed value has no `networks` field at all, the
`networks=[]` argument being dropped, see `C1`), and the only DNS queries
issued are the verifier's three — no record aggregation, no subdomain
enumeration. -/
theorem C8_nonexistent_domain (oracle : DnsOracle) (table : List Provider)
    (domain : String) (include_subdomains : Bool)
    (wordlist : Option (List String)) (max_concurrency : Nat)
    (h : verify_domain oracle domain = false) :
    analyze_domain oracle table domain include_subdomains wordlist
        max_concurrency =
      { domain := domain, exists_ := false, apex_records := [],
        providers :=
          { email := "Unknown", productivity := "Unknown", evidence := [] },
        subdomains := [] } ∧
    analyzeQueries oracle domain include_subdomains wordlist =
      verifyQueries domain := by
  constructor
  · simp [analyze_domain, h, DomainAnalysisResponse.construct]
  · simp [analyzeQueries, h]

/-- Witness for C8 at a concrete oracle on which every lookup fails. -/
theorem C8_witness :
    analyze_domain (fun _ _ => .dnsError) [] "no-such.example" true
        (some ["www", "mail"]) 20 =
      { domain := "no-such.example", exists_ := false, apex_records := [],
        providers :=
          { email := "Unknown", productivity := "Unknown", evidence := [] },
        subdomains := [] } ∧
    analyzeQueries (fun _ _ => .dnsError) "no-such.example" true
        (some ["www", "mail"]) =
      verifyQueries "no-such.example" :=
  C8_nonexistent_domain (fun _ _ => .dnsError) [] "no-such.example" true
    (some ["www", "mail"]) 20 (by decide)

/-- C10: the comment test of `_enumerate_subdomains` runs on the untrimmed
line, so a line whose first character is whitespace is never skipped as a
comment even when its trimmed text begins with "#": it is probed as its
trimmed text (e.g. "  #internal" becomes candidate "#internal" and is
probed as `#internal.<domain>`); only a line whose very first character is
"#" is skipped; and the candidate list is not deduplicated — duplicate
lines are probed once per occurrence. -/
theorem C10_untrimmed_comment_test :
    (∀ line c rest, line.toList = c :: rest → c.isWhitespace = true →
      candidate_lines [line]
        = if (pyStrip line).isEmpty then [] else [pyStrip line]) ∧
    (∀ line, strStartsWith line "#" = true → candidate_lines [line] = []) ∧
    candidate_lines ["  #internal"] = ["#internal"] ∧
    (∀ domain, enumerateQueries domain (some ["  #internal"])
      = gatherQueries ("#internal" ++ "." ++ domain)) ∧
    (∀ l1 l2, candidate_lines (l1 ++ l2)
      = candidate_lines l1 ++ candidate_lines l2) ∧
    candidate_lines ["mail", "mail"] = ["mail", "mail"] := by
  have hone : ∀ line c rest, line.toList = c :: rest → c.isWhitespace = true →
      strStartsWith line "#" = false := by
    intro line c rest hl hw
    have hc : ¬ ('#' = c) := by
      intro h
      rw [← h] at hw
      exact absurd hw (by decide)
    unfold strStartsWith
    rw [hl]
    show (('#' == c) && charsPrefixOf [] rest) = false
    simp [hc]
  refine ⟨?_, ?_, by decide, ?_, ?_, by decide⟩
  · intro line c rest hl hw
    have hs := hone line c rest hl hw
    cases he : (pyStrip line).isEmpty <;> simp [candidate_lines, hs, he]
  · intro line h
    simp [candidate_lines, h]
  · intro domain
    have hc : candidate_lines ["  #internal"] = ["#internal"] := by decide
    simp [enumerateQueries, hc]
  · intro l1 l2
    simp [candidate_lines]

/-- Witness for C10: "  #internal" (leading whitespace, then "#") is kept
and probed as "#internal.example.com", while "#skip" (first character "#")
is skipped. -/
theorem C10_witness :
    candidate_lines ["  #internal"]
      = (if (pyStrip "  #internal").isEmpty then []
         else [pyStrip "  #internal"]) ∧
    candidate_lines ["#skip"] = [] ∧
    enumerateQueries "example.com" (some ["  #internal"])
      = gatherQueries ("#internal" ++ "." ++ "example.com") :=
  ⟨C10_untrimmed_comment_test.1 "  #internal" ' ' " #internal".toList
      (by decide) (by decide),
   C10_untrimmed_comment_test.2.1 "#skip" (by decide),
   C10_untrimmed_comment_test.2.2.2.1 "example.com"⟩

/-- Semaphore bookkeeping invariant: along every schedule, the remaining
permits plus the probes inside the `async with semaphore` block always sum
to `max_concurrency`. -/
theorem enum_invariant (max_concurrency candidates : Nat) (s : EnumState)
    (h : enumReachable max_concurrency candidates s) :
    s.sem + inflightCount s = max_concurrency := by
  induction h with
  | refl => simp [enumInit, inflightCount, List.count_replicate]
  | @tail t u hab hbc ih =>
    cases hbc with
    | acquire i hi hsem =>
      rcases List.getElem?_eq_some.mp hi with ⟨hlen, hget⟩
      have hcount :=
        List.count_set ProbePhase.inflight ProbePhase.inflight t.tasks i hlen
      rw [hget] at hcount
      simp only [inflightCount] at *
      simp only [show (ProbePhase.pending == ProbePhase.inflight) = false by
        decide, show (ProbePhase.inflight == ProbePhase.inflight) = true by
        decide, if_true, Bool.false_eq_true, if_false, Nat.sub_zero] at hcount
      rw [hcount]
      omega
    | release i hi =>
      rcases List.getElem?_eq_some.mp hi with ⟨hlen, hget⟩
      have hcount :=
        List.count_set ProbePhase.finished ProbePhase.inflight t.tasks i hlen
      rw [hget] at hcount
      have hmem : ProbePhase.inflight ∈ t.tasks := hget ▸ t.tasks.getElem_mem hlen
      have hpos : 0 < t.tasks.count ProbePhase.inflight :=
        List.count_pos_iff.mpr hmem
      simp only [inflightCount] at *
      simp only [show (ProbePhase.inflight == ProbePhase.inflight) = true by
        decide, show (ProbePhase.finished == ProbePhase.inflight) = false by
        decide, if_true, Bool.false_eq_true, if_false, Nat.add_zero] at hcount
      rw [hcount]
      omega

/-- C9: along every schedule of the subdomain enumerator's probe tasks —
any number of candidates, any `max_concurrency` — the number of
simultaneously in-flight aggregate DNS probes never exceeds
`max_concurrency`: the semaphore permit is acquired before the aggregate
query and released after it completes, so every reachable scheduler state
keeps `inflightCount ≤ max_concurrency`. -/
theorem C9_concurrency_cap (max_concurrency candidates : Nat) (s : EnumState)
    (h : enumReachable max_concurrency candidates s) :
    inflightCount s ≤ max_concurrency := by
  have hinv := enum_invariant max_concurrency candidates s h
  omega

/-- Witness for C9: with two permits and three probe tasks, the state after
one admission has one probe in flight, within the cap. -/
theorem C9_witness :
    inflightCount
        { sem := 2 - 1,
          tasks := (List.replicate 3 ProbePhase.pending).set 0 .inflight }
      ≤ 2 :=
  C9_concurrency_cap 2 3 _
    (Relation.ReflTransGen.single
      (EnumStep.acquire (enumInit 2 3) 0 rfl (by decide)))

end DomainAnalyser
